import Mathlib

/-!
Shallow embedding of the logging package of this repository
(`src/logger/logger.go`), covering:

* `createSQL` — SQL trace reconstruction (positional `?` dialect and
  numeric `$n` dialect), lines 230–252 of the source;
* `isPrintable` / `getFormattedValues` — per-value formatting of bound
  SQL parameters, lines 180–227;
* `createLog` — the gorm trace entry point, lines 166–178;
* `newEncoder` / `build` and the sink helpers, lines 74–144.

Strings are modelled as `List Char` internally (Go iterates runes);
`String` wrappers give the external API.  Go regexps are embedded as
direct scans implementing RE2 leftmost-first semantics for the two
concrete patterns the source compiles (`\$\d+`, `\$N([^\d]|$)`) and the
splitter `\?`.
-/

set_option autoImplicit false

namespace GoLogger

/-- Decimal digit character, as produced by Go integer formatting. -/
def digitChar (n : Nat) : Char := Char.ofNat (48 + n % 10)

/-- Decimal digits of a natural number, most significant first.  Written
with explicit fuel so that it is structurally recursive (and hence
kernel-evaluable); `natDigits` supplies always-sufficient fuel. -/
def natDigitsFuel (fuel : Nat) (n : Nat) : List Char :=
  match fuel with
  | 0 => []
  | fuel + 1 => if n < 10 then [digitChar n] else natDigitsFuel fuel (n / 10) ++ [digitChar n]

/-- Decimal digits of `n`, e.g. `natDigits 12 = ['1', '2']`. -/
def natDigits (n : Nat) : List Char := natDigitsFuel (n + 1) n

/-- Attempt to strip the literal pattern `pat` from the front of `s`,
returning the remainder on success. -/
def tryStrip (pat s : List Char) : Option (List Char) :=
  match pat, s with
  | [], rest => some rest
  | _ :: _, [] => none
  | p :: ps, c :: cs => if c = p then tryStrip ps cs else none

/-- One scan of Go's `regexp.MustCompile(pat ++ "([^\d]|$)").ReplaceAllString s
(val + "$1")` where `pat` is a literal (here always `$` followed by decimal
digits): leftmost, non-overlapping matches; a match is the literal followed by
either a non-digit character (captured and re-emitted after `val`) or the end
of the string.  Fuel makes the recursion structural; `replaceAllNum` supplies
fuel that is always sufficient (each step consumes at least one character). -/
def replaceAllNumFuel (pat val : List Char) (fuel : Nat) (s : List Char) : List Char :=
  match fuel, s with
  | 0, s => s
  | _ + 1, [] => []
  | fuel + 1, c :: cs =>
    match tryStrip pat (c :: cs) with
    | some [] => val
    | some (d :: ds) =>
      if d.isDigit then c :: replaceAllNumFuel pat val fuel cs
      else val ++ d :: replaceAllNumFuel pat val fuel ds
    | none => c :: replaceAllNumFuel pat val fuel cs

/-- Go's `ReplaceAllString` for the pattern `\$N([^\d]|$)` with replacement
`val + "$1"` (source line 240); `pat` is the literal `$N` part. -/
def replaceAllNum (pat val s : List Char) : List Char :=
  replaceAllNumFuel pat val s.length s

/-- Go's `regexp.MustCompile(`\$\d+`).MatchString` (source lines 233, 237):
the string contains a `$` immediately followed by a decimal digit. -/
def hasNumericPlaceholder : List Char → Bool
  | [] => false
  | [_] => false
  | c :: d :: rest => (c = '$' && d.isDigit) || hasNumericPlaceholder (d :: rest)

/-- Go's `regexp.MustCompile(`\?`).Split(s, -1)` (source lines 232, 244):
split on every `?`, keeping empty segments, so the result always has one
more segment than there are `?` characters. -/
def splitOnQ : List Char → List (List Char)
  | [] => [[]]
  | c :: cs =>
    if c = '?' then [] :: splitOnQ cs
    else
      match splitOnQ cs with
      | [] => [[c]]
      | p :: ps => (c :: p) :: ps

/-- The positional reassembly loop of `createSQL` (source lines 243–249):
`result += piece; if index < len(values) { result += values[index] }`.
Segment `i` is followed by value `i` exactly while value `i` exists. -/
def interleave : List (List Char) → List (List Char) → List Char
  | [], _ => []
  | p :: ps, [] => p ++ interleave ps []
  | p :: ps, v :: vs => p ++ v ++ interleave ps vs

/-- Numeric-dialect branch of `createSQL` (source lines 238–241).  Note the
faithful modelling of the Go loop body `result = regexp.MustCompile(
placeholder).ReplaceAllString(sql, value+"$1")`: every iteration replaces
into the ORIGINAL `sql`, discarding the accumulator, so after the loop only
the final index's substitution is present (`""` when `values` is empty,
matching the initialiser `result := ""`). -/
def numericCreate (sql : String) (values : List String) : String :=
  String.mk ((values.map String.toList).enum.foldl
    (fun _result iv => replaceAllNum ('$' :: natDigits (iv.1 + 1)) iv.2 sql.toList) [])

/-- Positional-dialect branch of `createSQL` (source lines 242–249). -/
def positionalCreate (sql : String) (values : List String) : String :=
  String.mk (interleave (splitOnQ sql.toList) (values.map String.toList))

/-- `createSQL` (source lines 230–252): choose the numeric dialect iff the
template matches `\$\d+`, otherwise treat placeholders like `?`. -/
def createSQL (sql : String) (values : List String) : String :=
  if hasNumericPlaceholder sql.toList then numericCreate sql values
  else positionalCreate sql values


/-!
Value formatting (`isPrintable`, `getFormattedValues`, source lines
180–227).  Bound values reach the formatter as Go `interface{}` values;
they are modelled by `GoVal`: a non-pointer value (`GoBase`), a pointer
(dereferenced once by `reflect.Indirect`; a nil pointer is an invalid
reflect value), or a nil interface (also invalid).  `unicode.IsPrint` is a
Unicode-table lookup, so the development is parametric in a printability
predicate `isPrint : Char → Bool`; concrete theorems instantiate it with
`asciiIsPrint`, the restriction of Go's table to the ASCII range.
-/

/-- Go `time.Time`, as decomposed by `Format`: calendar fields plus the
nanosecond component (which `IsZero` inspects but the format string
`"2006-01-02 15:04:05"` does not print). -/
structure GoTime where
  year : Int
  month : Nat
  day : Nat
  hour : Nat
  minute : Nat
  second : Nat
  nsec : Nat
deriving DecidableEq

/-- Go `time.Time.IsZero`: January 1 of year 1, 00:00:00.000000000 UTC. -/
def GoTime.isZero (t : GoTime) : Bool :=
  t.year == 1 && t.month == 1 && t.day == 1 && t.hour == 0 && t.minute == 0
    && t.second == 0 && t.nsec == 0

/-- Ranges guaranteed by Go's calendar decomposition for every `time.Time`
(the year, however, is unbounded in both directions). -/
def GoTime.WF (t : GoTime) : Prop :=
  1 ≤ t.month ∧ t.month ≤ 12 ∧ 1 ≤ t.day ∧ t.day ≤ 31 ∧ t.hour ≤ 23
    ∧ t.minute ≤ 59 ∧ t.second ≤ 59

instance (t : GoTime) : Decidable t.WF := by
  unfold GoTime.WF
  infer_instance

/-- Go's `appendInt(b, n, w)`: decimal digits zero-padded on the left to at
least width `w` (never truncated). -/
def padTo (w n : Nat) : List Char :=
  List.replicate (w - (natDigits n).length) '0' ++ natDigits n

/-- Year field of Go's `Format`: pattern `2006` is `appendInt(b, year, 4)`,
which prints a leading minus sign for negative years. -/
def fmtYear (y : Int) : List Char :=
  if y < 0 then '-' :: padTo 4 y.natAbs else padTo 4 y.toNat

/-- Go `t.Format("2006-01-02 15:04:05")`. -/
def goTimeFormat (t : GoTime) : String :=
  String.mk (fmtYear t.year ++ '-' :: padTo 2 t.month ++ '-' :: padTo 2 t.day
    ++ ' ' :: padTo 2 t.hour ++ ':' :: padTo 2 t.minute ++ ':' :: padTo 2 t.second)

/-- A non-pointer Go runtime value, by the cases `getFormattedValues`
dispatches on: `time.Time`, `[]byte` (carried as its decoded rune
sequence), `driver.Valuer` (carrying `some r` when `Value()` returns a
non-nil value without error, `r` its `%v` rendering, and `none` on error
or nil), the numeric/boolean scalars of the type switch (integers carry
their value; floats carry their `%v` rendering), and the default case
(strings, plus anything else via its `%v` rendering). -/
inductive GoBase where
  | timeV (t : GoTime)
  | bytes (cs : List Char)
  | valuer (res : Option String)
  | intV (z : Int)
  | floatV (r : String)
  | boolV (b : Bool)
  | strV (s : String)
  | otherV (r : String)
deriving DecidableEq

/-- A Go `interface{}` bound value as seen by `getFormattedValues`:
`reflect.Indirect(reflect.ValueOf(v))` dereferences a pointer once (a nil
pointer yields an invalid value) and a nil interface is invalid. -/
inductive GoVal where
  | base (b : GoBase)
  | ptr (p : Option GoBase)
  | nilV
deriving DecidableEq

/-- `isPrintable` (source lines 180–187): every rune of the string passes
`unicode.IsPrint`. -/
def isPrintable (isPrint : Char → Bool) : List Char → Bool
  | [] => true
  | c :: cs => if isPrint c then isPrintable isPrint cs else false

/-- Loop body of `getFormattedValues` (source lines 193–224) for a value
whose `reflect.Indirect` is valid: `time.Time`, then `[]byte`, then
`driver.Valuer`, then the numeric/boolean type switch with a quoted `%v`
default. -/
def formatBase (isPrint : Char → Bool) : GoBase → String
  | GoBase.timeV t =>
      if t.isZero then "'0000-00-00 00:00:00'"
      else "'" ++ goTimeFormat t ++ "'"
  | GoBase.bytes cs =>
      if isPrintable isPrint cs then "'" ++ String.mk cs ++ "'" else "'<binary>'"
  | GoBase.valuer res =>
      match res with
      | some v => "'" ++ v ++ "'"
      | none => "NULL"
  | GoBase.intV z => toString z
  | GoBase.floatV r => r
  | GoBase.boolV b => if b then "true" else "false"
  | GoBase.strV s => "'" ++ s ++ "'"
  | GoBase.otherV r => "'" ++ r ++ "'"

/-- Loop body of `getFormattedValues` including the indirection step: an
invalid `reflect.Indirect` result (nil pointer or nil interface) formats
to `NULL` (source lines 222–224). -/
def formatValue (isPrint : Char → Bool) : GoVal → String
  | GoVal.base b => formatBase isPrint b
  | GoVal.ptr (some b) => formatBase isPrint b
  | GoVal.ptr none => "NULL"
  | GoVal.nilV => "NULL"

/-- The `getFormattedValues` loop (source lines 192–225): one formatted
string appended per bound value, in order. -/
def formatValues (isPrint : Char → Bool) : List GoVal → List String
  | [] => []
  | v :: vs => formatValue isPrint v :: formatValues isPrint vs

/-- `unicode.IsPrint` restricted to the ASCII range (space through tilde);
used to instantiate the printability parameter in concrete statements. -/
def asciiIsPrint (c : Char) : Bool := 32 ≤ c.toNat && c.toNat ≤ 126


/-- One element of the heterogeneous `values ...interface{}` list a gorm
trace callback passes to `Print`/`Println`: a string, a `[]interface{}`
of bound values, or anything else (durations, row counts, ...). -/
inductive GoArg where
  | str (s : String)
  | vals (vs : List GoVal)
  | other
deriving DecidableEq

/-- `getFormattedValues` (source lines 190–227): formats
`values[4].([]interface{})`.  Indexing past the end of `values` and a
failing type assertion are Go panics, modelled as `none`. -/
def getFormattedValues (isPrint : Char → Bool) (values : List GoArg) :
    Option (List String) :=
  match values[4]? with
  | some (GoArg.vals vs) => some (formatValues isPrint vs)
  | _ => none

/-- `createLog` (source lines 166–178): with more than one argument whose
first is the tag `"sql"`, emit `"[gorm] : "` plus the reconstructed SQL of
`values[3].(string)` and the formatted `values[4]`; otherwise return `""`
(no line).  Indexing/assertion panics are modelled as `none`. -/
def createLog (isPrint : Char → Bool) (values : List GoArg) : Option String :=
  if 1 < values.length then
    match values[0]? with
    | some (GoArg.str level) =>
      if level = "sql" then
        match values[3]?, getFormattedValues isPrint values with
        | some (GoArg.str sql), some fvs => some ("[gorm] : " ++ createSQL sql fvs)
        | _, _ => none
      else some ""
    | _ => some ""
  else some ""


/-!
Pipeline construction (`build`, `newEncoder`, `openWriters`, `open`,
`newWriter`, `buildOptions`, source lines 74–144).  The zap machinery is
modelled by the data `build` assembles: the chosen encoder (a nil
interface when `newEncoder` failed, modelled `none`), the fan-out list of
sinks (`zap.CombineWriteSyncers`), and the option list.
-/

/-- The fields of `zap.Config` the source reads. -/
structure ZapConfig where
  encoding : String
  development : Bool
  disableCaller : Bool
  disableStacktrace : Bool
  outputPaths : List String
  errorOutputPaths : List String
deriving DecidableEq

/-- The fields of `lumberjack.Logger` the source copies. -/
structure LogRotate where
  filename : String
  maxSize : Int
  maxBackups : Int
  maxAge : Int
deriving DecidableEq

/-- `Config` (source lines 23–26). -/
structure Config where
  zapConfig : ZapConfig
  logRotate : LogRotate
deriving DecidableEq

inductive Encoder where
  | console
  | json
deriving DecidableEq

/-- `newEncoder` (source lines 82–90): `console` and `json` succeed, any
other encoding returns the error `"Failed to set encoder"`. -/
def newEncoder (cfg : ZapConfig) : Except String Encoder :=
  match cfg.encoding with
  | "console" => Except.ok Encoder.console
  | "json" => Except.ok Encoder.json
  | _ => Except.error "Failed to set encoder"

inductive Sink where
  | stdout
  | stderr
  | rotatingFile (filename : String) (maxSize maxBackups maxAge : Int)
deriving DecidableEq

/-- `newWriter` (source lines 108–124): reserved names map to the standard
streams, anything else to a rotating-file sink built from the rotation
policy. -/
def newWriter (path : String) (rotateCfg : LogRotate) : Sink :=
  match path with
  | "stdout" => Sink.stdout
  | "stderr" => Sink.stderr
  | _ => Sink.rotatingFile rotateCfg.filename rotateCfg.maxSize
      rotateCfg.maxBackups rotateCfg.maxAge

/-- `open` (source lines 98–106); `zap.CombineWriteSyncers` is modelled as
the ordered list of member sinks. -/
def openSinks (paths : List String) (rotateCfg : LogRotate) : List Sink :=
  paths.map (fun path => newWriter path rotateCfg)

/-- `openWriters` (source lines 92–96). -/
def openWriters (cfg : Config) : List Sink × List Sink :=
  (openSinks cfg.zapConfig.outputPaths cfg.logRotate,
   openSinks cfg.zapConfig.errorOutputPaths cfg.logRotate)

inductive ZapLevel where
  | debugLevel
  | infoLevel
  | warnLevel
  | errorLevel
deriving DecidableEq

inductive ZapOption where
  | errorOutput (sinks : List Sink)
  | development
  | addCaller
  | addStacktrace (level : ZapLevel)
deriving DecidableEq

/-- `buildOptions` (source lines 126–144). -/
def buildOptions (cfg : ZapConfig) (errWriter : List Sink) : List ZapOption :=
  let opts := [ZapOption.errorOutput errWriter]
  let opts := if cfg.development then opts ++ [ZapOption.development] else opts
  let opts := if !cfg.disableCaller then opts ++ [ZapOption.addCaller] else opts
  let stackLevel := if cfg.development then ZapLevel.warnLevel else ZapLevel.errorLevel
  if !cfg.disableStacktrace then opts ++ [ZapOption.addStacktrace stackLevel] else opts

/-- The data `zap.New(zapcore.NewCore(enc, writer, level), opts...)`
receives from `build`. -/
structure ZapLogger where
  encoder : Option Encoder
  writer : List Sink
  options : List ZapOption
deriving DecidableEq

/-- `build` (source lines 74–80).  Note the faithful modelling of
`enc, _ := newEncoder(zapCfg)`: the error returned by `newEncoder` is
discarded (leaving a nil encoder interface, modelled `none`), and `build`
unconditionally returns a nil error (`Except.ok`). -/
def build (cfg : Config) : Except String ZapLogger :=
  let enc := (newEncoder cfg.zapConfig).toOption
  let writers := openWriters cfg
  Except.ok ⟨enc, writers.1, buildOptions cfg.zapConfig writers.2⟩


example : createSQL "SELECT * FROM t WHERE a = ? AND b = ?" ["1", "'x'"]
    = "SELECT * FROM t WHERE a = 1 AND b = 'x'" := by decide

example : formatValues asciiIsPrint
    [GoVal.base (GoBase.intV 7), GoVal.nilV, GoVal.base (GoBase.strV "x")]
    = ["7", "NULL", "'x'"] := by decide

example : createLog asciiIsPrint
    [GoArg.str "sql", GoArg.other, GoArg.other, GoArg.str "a = ?",
     GoArg.vals [GoVal.base (GoBase.intV 7)]]
    = some "[gorm] : a = 7" := by decide

example : createLog asciiIsPrint [GoArg.str "info", GoArg.str "x"] = some "" := by
  decide


/-! Helper lemmas about the positional dialect. -/

theorem splitOnQ_ne_nil (s : List Char) : splitOnQ s ≠ [] := by
  cases s with
  | nil => simp [splitOnQ]
  | cons c cs =>
    by_cases hc : c = '?'
    · simp [splitOnQ, hc]
    · cases h : splitOnQ cs <;> simp [splitOnQ, hc, h]

theorem not_q_mem_splitOnQ (s : List Char) :
    ∀ p ∈ splitOnQ s, ('?' : Char) ∉ p := by
  induction s with
  | nil =>
    intro p hp
    simp [splitOnQ] at hp
    simp [hp]
  | cons c cs ih =>
    intro p hp
    by_cases hc : c = '?'
    · simp [splitOnQ, hc] at hp
      rcases hp with hp | hp
      · simp [hp]
      · exact ih p hp
    · cases h : splitOnQ cs with
      | nil => exact absurd h (splitOnQ_ne_nil cs)
      | cons q qs =>
        simp [splitOnQ, hc, h] at hp
        rcases hp with hp | hp
        · subst hp
          have hq : ('?' : Char) ∉ q := ih q (h ▸ List.mem_cons_self q qs)
          simp [List.mem_cons, hq]
          exact fun contra => hc contra.symm
        · exact ih p (h ▸ List.mem_cons_of_mem q hp)

theorem interleave_nil_eq_filter (s : List Char) :
    interleave (splitOnQ s) [] = s.filter (fun c => c != '?') := by
  induction s with
  | nil => simp [splitOnQ, interleave]
  | cons c cs ih =>
    by_cases hc : c = '?'
    · simp [splitOnQ, hc, interleave, List.filter_cons]
      exact ih
    · cases h : splitOnQ cs with
      | nil => exact absurd h (splitOnQ_ne_nil cs)
      | cons q qs =>
        rw [h] at ih
        simp [splitOnQ, hc, h, interleave, List.filter_cons, hc]
        rw [← ih]
        simp [interleave]

theorem not_q_interleave (pieces values : List (List Char))
    (hp : ∀ p ∈ pieces, ('?' : Char) ∉ p)
    (hv : ∀ v ∈ values, ('?' : Char) ∉ v) :
    ('?' : Char) ∉ interleave pieces values := by
  induction pieces generalizing values with
  | nil => simp [interleave]
  | cons p ps ih =>
    cases values with
    | nil =>
      simp [interleave]
      refine ⟨hp p (List.mem_cons_self p ps), ?_⟩
      exact ih [] (fun q hq => hp q (List.mem_cons_of_mem p hq)) (by simp)
    | cons v vs =>
      simp [interleave]
      refine ⟨hp p (List.mem_cons_self p ps), hv v (List.mem_cons_self v vs), ?_⟩
      exact ih vs (fun q hq => hp q (List.mem_cons_of_mem p hq))
        (fun w hw => hv w (List.mem_cons_of_mem v hw))

/-- C1: the spec claims the numeric dialect substitutes every indexed
placeholder cumulatively, so that
`reconstruct("SELECT * FROM t WHERE a = $1 AND b = $2", ["1","'x'"])` is
`"SELECT * FROM t WHERE a = 1 AND b = 'x'"`.  The code instead assigns
`result = ReplaceAllString(sql, ...)` from the ORIGINAL template on every
loop iteration, so only the last index's substitution survives: on that
exact input the program returns `"SELECT * FROM t WHERE a = $1 AND b = 'x'"`,
leaving `$1` unresolved.  This contradicts the function's own documentation
("returns complete SQL with values bound to a SQL statement") and the
upstream gorm logger it is copied from, which substitutes cumulatively. -/
theorem createSQL_numeric_overwrites_prior_substitutions :
    createSQL "SELECT * FROM t WHERE a = $1 AND b = $2" ["1", "'x'"]
      = "SELECT * FROM t WHERE a = $1 AND b = 'x'"
    ∧ createSQL "SELECT * FROM t WHERE a = $1 AND b = $2" ["1", "'x'"]
      ≠ "SELECT * FROM t WHERE a = 1 AND b = 'x'" := by
  constructor
  · decide
  · decide

/-- C2 (counterexample): the claim that `reconstruct(template, [])` returns
`template` unchanged for every template is false: a template containing `?`
loses the `?` characters (the split segments are rejoined without the
separators), and a template containing a `$n` placeholder yields the empty
string (the numeric loop never runs, leaving the initial `result = ""`). -/
theorem createSQL_empty_values_not_identity :
    createSQL "a = ?" [] = "a = "
    ∧ createSQL "a = ?" [] ≠ "a = ?"
    ∧ createSQL "b = $1" [] = "" := by
  refine ⟨by decide, by decide, by decide⟩

/-- C2 (amended): with an empty value sequence, `createSQL` returns the
empty string when the template contains a numeric placeholder, and
otherwise returns the template with every `?` character removed (hence the
template unchanged exactly when it contains no `?` and no `$n`). -/
theorem createSQL_empty_values_behavior (sql : String) :
    createSQL sql []
      = if hasNumericPlaceholder sql.toList then ""
        else String.mk (sql.toList.filter (fun c => c != '?')) := by
  unfold createSQL
  by_cases h : hasNumericPlaceholder sql.toList
  · rw [if_pos h, if_pos h]
    rfl
  · rw [if_neg h, if_neg h]
    unfold positionalCreate
    simp [interleave_nil_eq_filter]

/-- C3 (counterexample): the claim that each `?` beyond the value count
appears as a literal `?` in the reconstructed output is false: with the
two-placeholder template and one value, the second `?` is removed, not
preserved. -/
theorem createSQL_excess_question_marks_removed_concrete :
    createSQL "a = ? AND b = ?" ["1"] = "a = 1 AND b = "
    ∧ ('?' : Char) ∉ (createSQL "a = ? AND b = ?" ["1"]).toList := by
  refine ⟨by decide, by decide⟩

/-- C3 (amended): in the positional dialect, interleaving stops once the
values are exhausted and every `?` — including each `?` beyond the value
count — is removed from the output (the split segments are joined
directly): whenever the template has no numeric placeholder and no supplied
value itself contains `?`, the reconstructed string contains no `?` at all. -/
theorem createSQL_positional_removes_question_marks
    (sql : String) (values : List String)
    (h1 : hasNumericPlaceholder sql.toList = false)
    (h2 : ∀ v ∈ values, ('?' : Char) ∉ v.toList) :
    ('?' : Char) ∉ (createSQL sql values).toList := by
  have hsql : createSQL sql values = positionalCreate sql values := by
    unfold createSQL
    rw [if_neg (by simp only [Bool.not_eq_true]; exact h1)]
  rw [hsql]
  show ('?' : Char) ∉ (String.mk (interleave (splitOnQ sql.toList)
    (values.map String.toList))).toList
  have : (String.mk (interleave (splitOnQ sql.toList)
      (values.map String.toList))).toList
      = interleave (splitOnQ sql.toList) (values.map String.toList) := rfl
  rw [this]
  apply not_q_interleave
  · exact not_q_mem_splitOnQ sql.toList
  · intro v hv
    rcases List.mem_map.mp hv with ⟨w, hw, rfl⟩
    exact h2 w hw

/-- Witness for `createSQL_positional_removes_question_marks` at a concrete
template with more `?` placeholders than values. -/
theorem createSQL_positional_removes_question_marks_witness :
    hasNumericPlaceholder ("x = ? AND y = ?" : String).toList = false
    ∧ ('?' : Char) ∉ (createSQL "x = ? AND y = ?" ["7"]).toList := by
  refine ⟨by decide, ?_⟩
  exact createSQL_positional_removes_question_marks "x = ? AND y = ?" ["7"]
    (by decide) (by decide)

/-- C9: dialect detection is exclusive: whenever the template matches the
numeric-placeholder pattern `\$\d+`, `createSQL` is the numeric-dialect
substitution and the positional `?`-splitting branch is never taken. -/
theorem createSQL_numeric_dialect_exclusive
    (sql : String) (values : List String)
    (h : hasNumericPlaceholder sql.toList = true) :
    createSQL sql values = numericCreate sql values := by
  unfold createSQL
  rw [if_pos h]

/-- Witness for `createSQL_numeric_dialect_exclusive` on a template that
contains both a `$n` placeholder and a literal `?`: the numeric dialect is
used and the `?` survives untouched in the output. -/
theorem createSQL_numeric_dialect_exclusive_witness :
    hasNumericPlaceholder ("a = $1 AND b = ?" : String).toList = true
    ∧ createSQL "a = $1 AND b = ?" ["'x'"]
      = numericCreate "a = $1 AND b = ?" ["'x'"]
    ∧ createSQL "a = $1 AND b = ?" ["'x'"] = "a = 'x' AND b = ?" := by
  refine ⟨by decide, ?_, by decide⟩
  exact createSQL_numeric_dialect_exclusive "a = $1 AND b = ?" ["'x'"] (by decide)

/-! Digit-count lemmas for the timestamp-length claim. -/

theorem natDigitsFuel_length_le :
    ∀ (k fuel n : Nat), 1 ≤ k → n < 10 ^ k → (natDigitsFuel fuel n).length ≤ k := by
  intro k
  induction k with
  | zero => intro fuel n hk _; omega
  | succ k ih =>
    intro fuel n _ hn
    cases fuel with
    | zero => simp [natDigitsFuel]
    | succ fuel =>
      by_cases h10 : n < 10
      · simp [natDigitsFuel, h10]
      · have hk1 : 1 ≤ k := by
          by_contra hk0
          have : k = 0 := by omega
          subst this
          simp at hn
          omega
        have hdiv : n / 10 < 10 ^ k := by
          rw [Nat.div_lt_iff_lt_mul (by norm_num : (0 : Nat) < 10)]
          calc n < 10 ^ (k + 1) := hn
            _ = 10 ^ k * 10 := by ring
        have hrec := ih fuel (n / 10) hk1 hdiv
        simp [natDigitsFuel, h10]
        omega

theorem natDigits_length_le (k n : Nat) (hk : 1 ≤ k) (hn : n < 10 ^ k) :
    (natDigits n).length ≤ k :=
  natDigitsFuel_length_le k (n + 1) n hk hn

theorem padTo_length (w n : Nat) (h : (natDigits n).length ≤ w) :
    (padTo w n).length = w := by
  simp [padTo]
  omega

theorem strLength_mk (l : List Char) : (String.mk l).length = l.length := rfl

/-- C7: a byte-sequence value whose characters are all printable formats to
the single-quoted string, and one with any non-printable character formats
to the literal `'<binary>'` (source lines 202–207). -/
theorem formatValue_bytes_printable_or_binary (isPrint : Char → Bool) (cs : List Char) :
    (isPrintable isPrint cs = true →
      formatValue isPrint (GoVal.base (GoBase.bytes cs)) = "'" ++ String.mk cs ++ "'")
    ∧ (isPrintable isPrint cs = false →
      formatValue isPrint (GoVal.base (GoBase.bytes cs)) = "'<binary>'") := by
  constructor <;> intro h <;> simp [formatValue, formatBase, h]

/-- Witness for `formatValue_bytes_printable_or_binary`: the printable
bytes `"ab"` and the non-printable single byte BEL. -/
theorem formatValue_bytes_printable_or_binary_witness :
    (isPrintable asciiIsPrint ['a', 'b'] = true
      ∧ formatValue asciiIsPrint (GoVal.base (GoBase.bytes ['a', 'b'])) = "'ab'")
    ∧ (isPrintable asciiIsPrint [Char.ofNat 7] = false
      ∧ formatValue asciiIsPrint (GoVal.base (GoBase.bytes [Char.ofNat 7]))
        = "'<binary>'") := by
  refine ⟨⟨by decide, ?_⟩, ⟨by decide, ?_⟩⟩
  · have h := (formatValue_bytes_printable_or_binary asciiIsPrint ['a', 'b']).1 (by decide)
    rw [h]
    decide
  · exact (formatValue_bytes_printable_or_binary asciiIsPrint [Char.ofNat 7]).2 (by decide)

/-- C8 (counterexample): the claim that every non-zero timestamp formats to
exactly 19 characters between the quotes is false: Go's year field is
zero-padded to at least four digits but never truncated, so year 10000
yields 20 characters between the quotes. -/
theorem formatValue_time_year10000_counterexample :
    (GoTime.mk 10000 1 1 0 0 0 0).isZero = false
    ∧ formatValue asciiIsPrint (GoVal.base (GoBase.timeV (GoTime.mk 10000 1 1 0 0 0 0)))
      = "'10000-01-01 00:00:00'"
    ∧ (goTimeFormat (GoTime.mk 10000 1 1 0 0 0 0)).length = 20 := by
  refine ⟨by decide, by decide, by decide⟩

/-- C8 (amended): the zero timestamp formats to `'0000-00-00 00:00:00'`;
a non-zero timestamp formats to the quoted `YYYY-MM-DD HH:MM:SS` rendering,
and the content between the quotes is exactly 19 characters whenever the
year fits in four digits (`0 ≤ year ≤ 9999`); years outside that range
print with correspondingly more characters (source lines 196–201). -/
theorem formatValue_time_shape (isPrint : Char → Bool) (t : GoTime) :
    (t.isZero = true →
      formatValue isPrint (GoVal.base (GoBase.timeV t)) = "'0000-00-00 00:00:00'")
    ∧ (t.isZero = false → t.WF → 0 ≤ t.year → t.year ≤ 9999 →
      formatValue isPrint (GoVal.base (GoBase.timeV t)) = "'" ++ goTimeFormat t ++ "'"
      ∧ (goTimeFormat t).length = 19) := by
  constructor
  · intro hz
    simp [formatValue, formatBase, hz]
  · intro hz hwf hy0 hy1
    refine ⟨by simp [formatValue, formatBase, hz], ?_⟩
    obtain ⟨hm1, hm2, hd1, hd2, hh, hmin, hsec⟩ := hwf
    have h100 : (10 : Nat) ^ 2 = 100 := by norm_num
    have h10000 : (10 : Nat) ^ 4 = 10000 := by norm_num
    have hy4 : (padTo 4 t.year.toNat).length = 4 :=
      padTo_length 4 _ (natDigits_length_le 4 _ (by norm_num) (by omega))
    have hmo : (padTo 2 t.month).length = 2 :=
      padTo_length 2 _ (natDigits_length_le 2 _ (by norm_num) (by omega))
    have hda : (padTo 2 t.day).length = 2 :=
      padTo_length 2 _ (natDigits_length_le 2 _ (by norm_num) (by omega))
    have hho : (padTo 2 t.hour).length = 2 :=
      padTo_length 2 _ (natDigits_length_le 2 _ (by norm_num) (by omega))
    have hmi : (padTo 2 t.minute).length = 2 :=
      padTo_length 2 _ (natDigits_length_le 2 _ (by norm_num) (by omega))
    have hse : (padTo 2 t.second).length = 2 :=
      padTo_length 2 _ (natDigits_length_le 2 _ (by norm_num) (by omega))
    have hyy : fmtYear t.year = padTo 4 t.year.toNat := by
      unfold fmtYear
      rw [if_neg (by omega)]
    simp only [goTimeFormat, strLength_mk, hyy, List.length_append, List.length_cons]
    omega

/-- Witness for `formatValue_time_shape`: the zero timestamp and the
concrete timestamp 2026-10-11 12:34:56. -/
theorem formatValue_time_shape_witness :
    ((GoTime.mk 1 1 1 0 0 0 0).isZero = true
      ∧ formatValue asciiIsPrint (GoVal.base (GoBase.timeV (GoTime.mk 1 1 1 0 0 0 0)))
        = "'0000-00-00 00:00:00'")
    ∧ ((GoTime.mk 2026 10 11 12 34 56 0).isZero = false
      ∧ formatValue asciiIsPrint
          (GoVal.base (GoBase.timeV (GoTime.mk 2026 10 11 12 34 56 0)))
        = "'" ++ goTimeFormat (GoTime.mk 2026 10 11 12 34 56 0) ++ "'"
      ∧ (goTimeFormat (GoTime.mk 2026 10 11 12 34 56 0)).length = 19) := by
  refine ⟨⟨by decide, ?_⟩, by decide, ?_, ?_⟩
  · exact (formatValue_time_shape asciiIsPrint _).1 (by decide)
  · exact ((formatValue_time_shape asciiIsPrint _).2 (by decide) (by decide)
      (by decide) (by decide)).1
  · exact ((formatValue_time_shape asciiIsPrint _).2 (by decide) (by decide)
      (by decide) (by decide)).2

theorem formatValues_length (isPrint : Char → Bool) (vs : List GoVal) :
    (formatValues isPrint vs).length = vs.length := by
  induction vs with
  | nil => rfl
  | cons v vs ih => simp [formatValues, ih]

/-- C10: the formatting step produces exactly one formatted value per bound
value: whenever the trace argument list carries a bound-value sequence at
index 4, `getFormattedValues` succeeds and its result has the same length
as that sequence (source lines 190–227). -/
theorem getFormattedValues_one_per_value (isPrint : Char → Bool)
    (values : List GoArg) (vs : List GoVal)
    (h : values[4]? = some (GoArg.vals vs)) :
    ∃ fvs, getFormattedValues isPrint values = some fvs ∧ fvs.length = vs.length := by
  refine ⟨formatValues isPrint vs, ?_, formatValues_length isPrint vs⟩
  unfold getFormattedValues
  rw [h]

/-- Witness for `getFormattedValues_one_per_value` with two bound values. -/
theorem getFormattedValues_one_per_value_witness :
    ∃ fvs, getFormattedValues asciiIsPrint
      [GoArg.str "sql", GoArg.other, GoArg.other, GoArg.str "a = ?",
       GoArg.vals [GoVal.base (GoBase.boolV true), GoVal.nilV]] = some fvs
      ∧ fvs.length = 2 :=
  getFormattedValues_one_per_value asciiIsPrint _
    [GoVal.base (GoBase.boolV true), GoVal.nilV] (by decide)

/-- C4 (counterexample): the claim that SQL trace lines carry the fixed
prefix `"[sql] : "` is false: the code prefixes `"[gorm] : "` (source
line 173), shown here on a concrete loggable event. -/
theorem createLog_sql_prefix_counterexample :
    createLog asciiIsPrint
      [GoArg.str "sql", GoArg.other, GoArg.other, GoArg.str "SELECT 1", GoArg.vals []]
      = some "[gorm] : SELECT 1"
    ∧ createLog asciiIsPrint
      [GoArg.str "sql", GoArg.other, GoArg.other, GoArg.str "SELECT 1", GoArg.vals []]
      ≠ some ("[sql] : " ++ "SELECT 1") := by
  refine ⟨by decide, by decide⟩

/-- C4 (amended): for every loggable SQL trace event (more than one
argument, first argument the tag `"sql"`, a string template at index 3 and
a bound-value sequence at index 4), the produced log line is the fixed
prefix `"[gorm] : "` followed by the fully interpolated SQL statement. -/
theorem createLog_gorm_prefix (isPrint : Char → Bool) (args : List GoArg)
    (sql : String) (vs : List GoVal)
    (h1 : 1 < args.length) (h2 : args[0]? = some (GoArg.str "sql"))
    (h3 : args[3]? = some (GoArg.str sql)) (h4 : args[4]? = some (GoArg.vals vs)) :
    createLog isPrint args
      = some ("[gorm] : " ++ createSQL sql (formatValues isPrint vs)) := by
  unfold createLog getFormattedValues
  rw [if_pos h1, h2, h3, h4]
  rfl

/-- Witness for `createLog_gorm_prefix` at a concrete trace event. -/
theorem createLog_gorm_prefix_witness :
    createLog asciiIsPrint
      [GoArg.str "sql", GoArg.other, GoArg.other, GoArg.str "a = ?",
       GoArg.vals [GoVal.base (GoBase.intV 7)]]
      = some ("[gorm] : " ++ createSQL "a = ?"
          (formatValues asciiIsPrint [GoVal.base (GoBase.intV 7)])) :=
  createLog_gorm_prefix asciiIsPrint _ "a = ?" [GoVal.base (GoBase.intV 7)]
    (by decide) (by decide) (by decide) (by decide)

/-- C6: for a `"sql"`-tagged argument list of more than one element,
producing a log line additionally requires at least 5 elements with a
string at index 3 and a bound-value sequence at index 4; for such a list
of length 2, 3 or 4 the operation is not total — it panics on
out-of-range indexing (modelled `none`) instead of returning an empty
result (source lines 166–178 and 190–192). -/
theorem createLog_sql_requires_five_args (isPrint : Char → Bool) (args : List GoArg)
    (h1 : 1 < args.length) (h2 : args[0]? = some (GoArg.str "sql")) :
    ((createLog isPrint args).isSome = true →
      5 ≤ args.length
      ∧ (∃ s, args[3]? = some (GoArg.str s))
      ∧ (∃ vs, args[4]? = some (GoArg.vals vs)))
    ∧ (args.length = 2 ∨ args.length = 3 ∨ args.length = 4 →
      createLog isPrint args = none) := by
  have key : createLog isPrint args
      = match args[3]?, args[4]? with
        | some (GoArg.str sql), some (GoArg.vals vs) =>
            some ("[gorm] : " ++ createSQL sql (formatValues isPrint vs))
        | _, _ => none := by
    unfold createLog getFormattedValues
    rw [if_pos h1, h2]
    cases h3 : args[3]? with
    | none => rfl
    | some a3 =>
      cases h4 : args[4]? with
      | none => cases a3 <;> rfl
      | some a4 => cases a3 <;> cases a4 <;> rfl
  constructor
  · intro hs
    rw [key] at hs
    cases h3 : args[3]? with
    | none => rw [h3] at hs; simp at hs
    | some a3 =>
      cases h4 : args[4]? with
      | none => rw [h3, h4] at hs; cases a3 <;> simp at hs
      | some a4 =>
        rw [h3, h4] at hs
        cases a3 <;> cases a4 <;> simp at hs
        case str.vals s vs =>
          have hlt : 4 < args.length := by
            rcases List.getElem?_eq_some.mp h4 with ⟨hlt, _⟩
            exact hlt
          exact ⟨by omega, ⟨s, rfl⟩, ⟨vs, rfl⟩⟩
  · intro hlen
    have h4 : args[4]? = none := by
      apply List.getElem?_eq_none
      omega
    rw [key, h4]
    cases h3 : args[3]? with
    | none => rfl
    | some a3 => cases a3 <;> rfl

/-- Witness for `createLog_sql_requires_five_args`: a `"sql"`-tagged list
of length 2 panics (models to `none`) rather than producing a line. -/
theorem createLog_sql_requires_five_args_witness :
    createLog asciiIsPrint [GoArg.str "sql", GoArg.str "x"] = none :=
  (createLog_sql_requires_five_args asciiIsPrint [GoArg.str "sql", GoArg.str "x"]
    (by decide) (by decide)).2 (Or.inl (by decide))

/-- C5: the claim that an unrecognized encoding makes pipeline construction
fail with a configuration error surfaced to the caller is violated by the
code: `newEncoder` does return the error, but `build` discards it
(`enc, _ := newEncoder(zapCfg)`) and returns a successfully built logger
with a nil encoder and a nil error.  Evaluated at the failing input
`encoding = "xml"`. -/
theorem build_swallows_encoder_error :
    newEncoder ⟨"xml", false, false, false, ["stdout"], ["stderr"]⟩
      = Except.error "Failed to set encoder"
    ∧ build ⟨⟨"xml", false, false, false, ["stdout"], ["stderr"]⟩,
        ⟨"app.log", 10, 3, 7⟩⟩
      = Except.ok ⟨none, [Sink.stdout],
          [ZapOption.errorOutput [Sink.stderr], ZapOption.addCaller,
           ZapOption.addStacktrace ZapLevel.errorLevel]⟩ := by
  refine ⟨rfl, rfl⟩

end GoLogger
